import Mathlib

/-!
Verification of the OCTGui core: a shallow embedding of `src/OCTRecon.hpp`
(the B-scan reconstruction pipeline) and of `src/DAQ.cpp` (`DAQ::acquire`,
the acquisition loop), with theorems settling the frozen claims about them.

Modelling conventions:
* machine floating-point values (`T = float/double`) are modelled as `ℚ`;
* external library calls whose internals are not part of this repository
  (fftw's FFT, `cvMod::phaseCorrelate`, `cv::resize`, `std::cos`, `log10`)
  are abstracted as function parameters collected in a `Prims` bundle —
  every claim below holds for an arbitrary instantiation of these;
* `cv::Mat` is modelled by `CMat`: explicit `rows`/`cols`/`channels` plus a
  row-major list of rows (each row a flat list of `cols * channels` scalars);
* the C++ `assert` precondition in `reconBscan` is modelled as an explicit
  failure (`Option.none` result), per the fallible-code convention;
* the hidden `static cv::Mat_<T> prevMat` is threaded explicitly as an
  `Option (CMat ℚ)` state value (`none` models the initial empty matrix).
-/

namespace OCT

/-- Model of a continuous `cv::Mat_`: `data` is row-major, one list per row,
each row holding `cols * channels` scalars. -/
structure CMat (α : Type) where
  rows : Nat
  cols : Nat
  channels : Nat
  data : List (List α)
  deriving DecidableEq, Repr

/-- `circshift` from OCTRecon.hpp lines 124-134: normalize the shift with the
C++ expression `(idx + mat.cols) % mat.cols` (truncated `%`, `Int.tmod`),
scale by the channel count, and `std::rotate` every row left by that amount. -/
def circshift {α : Type} (mat : CMat α) (idx : Int) : CMat α :=
  let c : Int := (mat.cols : Int)
  let k : Nat := (Int.tmod (idx + c) c).toNat * mat.channels
  { mat with data := mat.data.map (fun r => r.rotate k) }

/-- One entry of the phase-calibration (k-space linearization) table,
OCTRecon.hpp lines 56-65: a source index and two blend coefficients. -/
structure phaseCalibUnit where
  idx : Nat
  l_coeff : ℚ
  r_coeff : ℚ
  deriving DecidableEq, Repr

instance : Inhabited phaseCalibUnit := ⟨⟨0, 0, 0⟩⟩

/-- `Calibration`, OCTRecon.hpp lines 67-77: the background spectrum and the
phase-calibration table (both sized to `ALineSize` by the constructor). -/
structure Calibration where
  background : List ℚ
  phaseCalib : List phaseCalibUnit
  deriving DecidableEq, Repr

/-- `ScanConversionParams`, OCTRecon.hpp lines 79-82. -/
structure ScanConversionParams where
  contrast : ℚ
  brightness : ℚ
  deriving DecidableEq, Repr

/-- External library primitives called by the pipeline but implemented outside
this repository: `log10` (libm), `std::cos` (libm), the fftw forward R2C
transform, `cvMod::phaseCorrelate` composed with `std::round` of its `.x`
component, and `cv::resize` (given target cols and rows). The claims hold
for every instantiation of this bundle. -/
structure Prims where
  log10 : ℚ → ℚ
  cosFn : ℚ → ℚ
  fft : List ℚ → List (ℚ × ℚ)
  phaseCorrX : CMat ℚ → CMat ℚ → Int
  resize : CMat ℚ → Nat → Nat → CMat ℚ

/-- `getHamming`, OCTRecon.hpp lines 27-33:
`win[i] = 0.54 - 0.46 * cos(2 * pi * i / n)`. -/
def getHamming (cosFn : ℚ → ℚ) (n : Nat) : List ℚ :=
  (List.range n).map (fun i =>
    0.54 - 0.46 * cosFn (2 * 3.1415926535897932384626 * (i : ℚ) / (n : ℚ)))

/-- Step 2 of `reconBscan` (OCTRecon.hpp lines 169-177): the k-space
linearization. `linearKFringe` is a zero-initialized vector of length `n`;
for each `i < n - 1` the code computes `idx = phaseCalib[i].idx`, re-reads
`unit = phaseCalib[idx]`, and writes
`aline[idx] * unit.l_coeff + aline[idx + 1] * unit.r_coeff`.
The last slot is never written and stays zero. -/
def linearize (pc : List phaseCalibUnit) (aline : List ℚ) (n : Nat) : List ℚ :=
  (List.range n).map (fun i =>
    if i < n - 1 then
      let idx := (pc.getD i default).idx
      let unit := pc.getD idx default
      aline.getD idx 0 * unit.l_coeff + aline.getD (idx + 1) 0 * unit.r_coeff
    else 0)

/-- The indices into the background-subtracted A-line buffer `alineBuf` that
the linearization loop reads: for each output position `i < n - 1` it reads
`idx` and `idx + 1` where `idx = phaseCalib[i].idx`. -/
def linReadIndices (pc : List phaseCalibUnit) (n : Nat) : List Nat :=
  ((List.range (n - 1)).map (fun i =>
    [(pc.getD i default).idx, (pc.getD i default).idx + 1])).flatten

/-- The clamp on OCTRecon.hpp line 93: `val < 0 ? 0 : val > 255 ? 255 : val`. -/
def clampByte (v : ℚ) : ℚ := if v < 0 then 0 else if v > 255 then 255 else v

/-- `logCompress`, OCTRecon.hpp lines 84-96: for each of the first
`imageDepth` complex bins, `val = contrast * (10 * log10(re^2 + im^2) +
brightness)` clamped to `[0, 255]` and cast to the output sample type.
`reconBscan` instantiates `Tout = T` (the float scalar of the image matrix),
so the final `static_cast<Tout>` is the identity and the entry stored is the
clamped value itself. -/
def logCompress (log10 : ℚ → ℚ) (imageDepth : Nat) (cx : List (ℚ × ℚ))
    (contrast brightness : ℚ) : List ℚ :=
  (List.range imageDepth).map (fun i =>
    let c := cx.getD i (0, 0)
    clampByte (contrast * (10 * log10 (c.1 * c.1 + c.2 * c.2) + brightness)))

/-- Step 1 of `reconBscan` (OCTRecon.hpp lines 164-167): background
subtraction for line `j`, `alineBuf[i] = fringe[offset + i] - background[i]`. -/
def bgSubtractLine (fringe background : List ℚ) (off n : Nat) : List ℚ :=
  (List.range n).map (fun i => fringe.getD (off + i) 0 - background.getD i 0)

/-- The windowing on OCTRecon.hpp lines 181-183:
`fftBuf.in[i] = win[i] * linearKFringe[i]`. -/
def windowLine (win line : List ℚ) (n : Nat) : List ℚ :=
  (List.range n).map (fun i => win.getD i 0 * line.getD i 0)

/-- The full per-A-line pipeline of `reconBscan` (OCTRecon.hpp lines 161-189)
for line `j`: background subtraction, linearization, Hamming window, FFT,
log compression to `imageDepth` samples. -/
def alineRecon (P : Prims) (calib : Calibration) (fringe : List ℚ)
    (n d : Nat) (cp : ScanConversionParams) (j : Nat) : List ℚ :=
  let aline := bgSubtractLine fringe calib.background (j * n) n
  let lin := linearize calib.phaseCalib aline n
  let windowed := windowLine (getHamming P.cosFn n) lin n
  logCompress P.log10 d (P.fft windowed) cp.contrast cp.brightness

/-- The assembled B-scan before sequence-level corrections: the `nLines x
imageDepth` matrix of per-line outputs, transposed (`mat = mat.t()`,
OCTRecon.hpp line 192) into an `imageDepth x nLines` image. -/
def perFrameImage (P : Prims) (calib : Calibration) (fringe : List ℚ)
    (n d : Nat) (cp : ScanConversionParams) : CMat ℚ :=
  let nLines := fringe.length / n
  let lineRows := (List.range nLines).map (alineRecon P calib fringe n d cp)
  ⟨d, nLines, 1, (List.range d).map (fun i => lineRows.map (fun r => r.getD i 0))⟩

/-- `mat(cv::Rect(x, 0, w, mat.rows))`: the sub-matrix of columns
`[x, x + w)` (single-channel). -/
def colRange (img : CMat ℚ) (x w : Nat) : CMat ℚ :=
  ⟨img.rows, w, 1, img.data.map (fun r => (r.drop x).take w)⟩

/-- `getDistortionOffset`, OCTRecon.hpp lines 98-106: the rounded `x`
component of the phase correlation between the first `corrWidth` columns and
the `corrWidth` columns starting at `theoryWidth` (the `convertTo(CV_32F)`
step is the identity in the exact-rational model). -/
def getDistortionOffset (P : Prims) (mat : CMat ℚ)
    (theoryWidth corrWidth : Nat) : Int :=
  P.phaseCorrX (colRange mat 0 corrWidth) (colRange mat theoryWidth corrWidth)

/-- The distortion-correction block of `reconBscan` (OCTRecon.hpp lines
194-213): `nLines == 2500` is recognized but deliberately left uncorrected;
`nLines == 2200` resizes columns `[0, 2000 + distOffset)` to the theoretical
2000 A-lines; every other A-line count falls through with `mat` untouched. -/
def distortionStage (P : Prims) (nLines : Nat) (mat : CMat ℚ) : CMat ℚ :=
  if nLines = 2200 then
    let theoretical := 2000
    let distOffset := getDistortionOffset P mat theoretical (nLines - theoretical)
    P.resize (colRange mat 0 ((theoretical : Int) + distOffset).toNat)
      theoretical mat.rows
  else mat

/-- `prevMat.cols == mat.cols && prevMat.rows == mat.rows`
(OCTRecon.hpp line 219). -/
def dimsMatch (p mat : CMat ℚ) : Bool :=
  p.cols == mat.cols && p.rows == mat.rows

/-- The temporal-alignment block of `reconBscan` (OCTRecon.hpp lines
215-226), with the hidden `static cv::Mat_<T> prevMat` made explicit:
if the previous image exists and its dimensions match, circularly shift the
current image by the phase-correlation offset; then `mat.copyTo(prevMat)`
seeds the state with the (possibly shifted) output. Returns
`(output image, new prevMat)`. -/
def alignStage (P : Prims) (prev : Option (CMat ℚ)) (mat : CMat ℚ) :
    CMat ℚ × CMat ℚ :=
  let mat' :=
    match prev with
    | some p =>
      if dimsMatch p mat then circshift mat (P.phaseCorrX p mat) else mat
    | none => mat
  (mat', mat')

/-- The stateless part of `reconBscan`: per-line processing assembled into an
image, followed by distortion correction — a function of the calibration,
fringe, and parameters only. -/
def pureImage (P : Prims) (calib : Calibration) (fringe : List ℚ)
    (n d : Nat) (cp : ScanConversionParams) : CMat ℚ :=
  distortionStage P (fringe.length / n) (perFrameImage P calib fringe n d cp)

/-- `reconBscan`, OCTRecon.hpp lines 136-231, with the static alignment state
threaded explicitly. The `assert((fringe.size() % ALineSize) == 0)`
precondition (line 143) is modelled as an explicit failure: a `none` image
with the state untouched. On success the returned image and the new state
are both the aligned image (the final `convertTo(CV_8U)` on the caller's
boundary is an elementwise saturating cast applied to this matrix). -/
def reconBscan (P : Prims) (calib : Calibration) (fringe : List ℚ)
    (ALineSize d : Nat) (cp : ScanConversionParams)
    (prev : Option (CMat ℚ)) : Option (CMat ℚ) × Option (CMat ℚ) :=
  if fringe.length % ALineSize = 0 then
    let nLines := fringe.length / ALineSize
    let mat0 := perFrameImage P calib fringe ALineSize d cp
    let mat1 := distortionStage P nLines mat0
    let out := alignStage P prev mat1
    (some out.1, some out.2)
  else (none, prev)

/-- Result codes of `AlazarWaitAsyncBufferComplete` as handled by the switch
in `DAQ::acquire` (DAQ.cpp lines 519-582): `ApiSuccess`, `ApiWaitTimeout`,
`ApiBufferOverflow`, `ApiBufferNotReady`, and the `default` arm for any
other code. -/
inductive WaitResult where
  | success
  | timeout
  | overflow
  | notReady
  | unknown (code : Nat)
  deriving DecidableEq, Repr

/-- The condition tags of the specific `m_errMsg` strings set by the
non-Success branches of the switch in `DAQ::acquire`. -/
inductive ErrTag where
  | timeout
  | overflow
  | notReady
  | unknown (code : Nat)
  deriving DecidableEq, Repr

/-- The condition-specific message recorded for a wait outcome; `Success`
records none. Distinct non-Success outcomes record distinct tags. -/
def ErrTag.ofWait : WaitResult → Option ErrTag
  | .success => none
  | .timeout => some .timeout
  | .overflow => some .overflow
  | .notReady => some .notReady
  | .unknown c => some (.unknown c)

/-- Environment of one `DAQ::acquire` run: the per-iteration outcome of the
hardware wait, the per-buffer success of the persistence-sink write (whether
`m_fs.write` completes without throwing), and the `shouldStopAcquiring` flag
sampled at the top of each iteration. -/
structure AcqEnv where
  wait : Nat → WaitResult
  writeOk : Nat → Bool
  shouldStop : Nat → Bool

/-- Observable outcome of a `DAQ::acquire` run: the returned success flag,
the final `buffersCompleted`, the recorded `m_errMsg` condition tag, the
frame indices handed to the ring buffer via `produce_nolock` (`dat->i`; the
copy into the slot is completed in full inside the hand-off), the
`buffersCompleted` values logged by failed persistence writes, and the
iteration indices whose buffer was reposted via `AlazarPostAsyncBuffer`
(pool slot `index % buffers.size()`). -/
structure AcqResult where
  success : Bool
  buffersCompleted : Nat
  errMsg : Option ErrTag
  produced : List Nat
  writeFailures : List Nat
  reposted : List Nat
  deriving DecidableEq, Repr

namespace DAQ

/-- The acquisition while-loop of `DAQ::acquire` (DAQ.cpp lines 503-589),
entered with `k = buffersCompleted` and `fuel = buffersToAcquire - k`
iterations allowed. Each iteration mirrors, in order: the
`shouldStopAcquiring` check of the loop condition,
`AlazarWaitAsyncBufferComplete` on pool slot `k % buffers.size()`, the
switch — on `ApiSuccess` increment `buffersCompleted`, hand frame `k` to
the ring buffer, then (when saving) write it to the persistence sink, a
throwing write logging the current `buffersCompleted` and clearing
`success`; on any other code record the condition-specific `m_errMsg` —
then `if (!success) break;` and the repost `AlazarPostAsyncBuffer`. -/
def acquireLoop (env : AcqEnv) (save : Bool) (pool : Nat) :
    Nat → Nat → List Nat → List Nat → List Nat → AcqResult
  | 0, k, produced, wfails, reposted =>
    ⟨true, k, none, produced, wfails, reposted⟩
  | fuel + 1, k, produced, wfails, reposted =>
    if env.shouldStop k then ⟨true, k, none, produced, wfails, reposted⟩
    else
      match env.wait k with
      | .success =>
        if save && !env.writeOk k then
          ⟨false, k + 1, none, produced ++ [k], wfails ++ [k + 1], reposted⟩
        else
          acquireLoop env save pool fuel (k + 1) (produced ++ [k]) wfails
            (reposted ++ [k % pool])
      | .timeout => ⟨false, k, some .timeout, produced, wfails, reposted⟩
      | .overflow => ⟨false, k, some .overflow, produced, wfails, reposted⟩
      | .notReady => ⟨false, k, some .notReady, produced, wfails, reposted⟩
      | .unknown c => ⟨false, k, some (.unknown c), produced, wfails, reposted⟩

/-- `DAQ::acquire` (DAQ.cpp lines 469-592) from the start of its while-loop:
up to `buffersToAcquire` iterations from `buffersCompleted = 0`, with empty
produce/report/repost histories. -/
def acquire (env : AcqEnv) (save : Bool) (pool buffersToAcquire : Nat) :
    AcqResult :=
  acquireLoop env save pool buffersToAcquire 0 [] [] []

end DAQ

/-- Environment exercising a persistence-sink write failure on the very
first completed buffer: every hardware wait succeeds, the write of buffer 0
fails, later writes succeed, and no stop is requested. -/
def envWriteFail : AcqEnv :=
  ⟨fun _ => WaitResult.success, fun i => decide (0 < i), fun _ => false⟩

/-- A concrete primitive bundle used by witnesses: constant-zero `log10` and
`cos`, the real-part embedding as FFT, zero phase-correlation offset, and a
resize that returns its input. -/
def trivPrims : Prims :=
  ⟨fun _ => 0, fun _ => 0, fun l => l.map (fun x => (x, 0)), fun _ _ => 0,
   fun m _ _ => m⟩

lemma getD_range_map {α : Type} (f : Nat → α) (n i : Nat) (d : α)
    (h : i < n) : ((List.range n).map f).getD i d = f i := by
  rw [List.getD_eq_getElem?_getD, List.getElem?_map, List.getElem?_range h]
  rfl

/-- Claim C10: for a matrix with `0 < cols` and any shift `s ≥ -cols`,
`circshift mat s` equals `circshift mat (s mod cols)` with the modulus
normalized into `[0, cols)`, and shifting by `0` or by exactly `cols`
leaves every element of the matrix unchanged. -/
theorem circshift_mod_reduction {α : Type} (mat : CMat α) (s : Int)
    (hc : 0 < (mat.cols : Int)) (hs : -(mat.cols : Int) ≤ s) :
    circshift mat s = circshift mat (s % (mat.cols : Int)) ∧
    0 ≤ s % (mat.cols : Int) ∧ s % (mat.cols : Int) < (mat.cols : Int) ∧
    circshift mat 0 = mat ∧ circshift mat (mat.cols : Int) = mat := by
  have hcne : (mat.cols : Int) ≠ 0 := ne_of_gt hc
  have hnn : 0 ≤ s % (mat.cols : Int) := Int.emod_nonneg s hcne
  have hlt : s % (mat.cols : Int) < (mat.cols : Int) := Int.emod_lt_of_pos s hc
  have hnorm : Int.tmod (s + (mat.cols : Int)) (mat.cols : Int)
      = s % (mat.cols : Int) := by
    have h0 : 0 ≤ s + (mat.cols : Int) := by omega
    rw [Int.tmod_eq_emod h0 (le_of_lt hc), Int.add_emod_self]
  have hnorm' : Int.tmod (s % (mat.cols : Int) + (mat.cols : Int)) (mat.cols : Int)
      = s % (mat.cols : Int) := by
    have h0 : 0 ≤ s % (mat.cols : Int) + (mat.cols : Int) := by omega
    rw [Int.tmod_eq_emod h0 (le_of_lt hc), Int.add_emod_self,
      Int.emod_emod_of_dvd _ dvd_rfl]
  have hzero : Int.tmod ((0 : Int) + (mat.cols : Int)) (mat.cols : Int) = 0 := by
    rw [Int.zero_add, Int.tmod_eq_emod (le_of_lt hc) (le_of_lt hc), Int.emod_self]
  have hcols : Int.tmod ((mat.cols : Int) + (mat.cols : Int)) (mat.cols : Int) = 0 := by
    rw [Int.tmod_eq_emod (by omega) (le_of_lt hc), Int.add_emod_self, Int.emod_self]
  refine ⟨?_, hnn, hlt, ?_, ?_⟩
  · simp only [circshift, hnorm, hnorm']
  · simp only [circshift, hzero]
    cases mat with
    | mk r c ch d => simp [List.rotate_zero]
  · simp only [circshift, hcols]
    cases mat with
    | mk r c ch d => simp [List.rotate_zero]

/-- Witness for `circshift_mod_reduction` at a concrete matrix and shift. -/
theorem circshift_mod_reduction_witness :
    circshift (CMat.mk 1 2 1 [[(1 : ℚ), 2]]) (-1) =
      circshift (CMat.mk 1 2 1 [[(1 : ℚ), 2]]) ((-1) % ((2 : Nat) : Int)) ∧
    0 ≤ (-1) % ((2 : Nat) : Int) ∧ (-1) % ((2 : Nat) : Int) < ((2 : Nat) : Int) ∧
    circshift (CMat.mk 1 2 1 [[(1 : ℚ), 2]]) 0 = CMat.mk 1 2 1 [[(1 : ℚ), 2]] ∧
    circshift (CMat.mk 1 2 1 [[(1 : ℚ), 2]]) ((2 : Nat) : Int) =
      CMat.mk 1 2 1 [[(1 : ℚ), 2]] :=
  circshift_mod_reduction (CMat.mk 1 2 1 [[(1 : ℚ), 2]]) (-1)
    (by decide) (by decide)

/-- Claim C1, counterexample: the claim states that the blend weights applied
at output position `i` come from table entry `i` (the same entry supplying
the source index). In the code the weights come from entry
`table[i].idx` instead (double indirection, OCTRecon.hpp lines 171-174).
With `table = [{idx 1, l 5, r 7}, {idx 1, l 2, r 3}, {idx 0, l 0, r 0}]`
and `corrected = [0, 1, 0]`, output 0 is
`corrected[1] * 2 + corrected[2] * 3 = 2`, not the claimed
`corrected[1] * 5 + corrected[2] * 7 = 5`. -/
theorem linearize_entry_weights_counterexample :
    (linearize [⟨1, 5, 7⟩, ⟨1, 2, 3⟩, ⟨0, 0, 0⟩] ([0, 1, 0] : List ℚ) 3).getD 0 0 ≠
      ([0, 1, 0] : List ℚ).getD 1 0 * 5 + ([0, 1, 0] : List ℚ).getD 2 0 * 7 := by
  norm_num [linearize, List.getD_eq_getElem?_getD]

/-- Claim C1 (amended): for every output position `i < ALineSize - 1`, the
linearization step computes
`corrected[idx] * table[idx].leftWeight + corrected[idx + 1] *
table[idx].rightWeight` where `idx = table[i].sourceIndex` — entry `i`
supplies only the source index, while the blend weights are re-read from
entry `idx` (the indirect entry), not from entry `i`. -/
theorem linearize_indirect_formula (pc : List phaseCalibUnit) (aline : List ℚ)
    (n i : Nat) (h : i < n - 1) :
    (linearize pc aline n).getD i 0 =
      aline.getD (pc.getD i default).idx 0 *
        (pc.getD (pc.getD i default).idx default).l_coeff +
      aline.getD ((pc.getD i default).idx + 1) 0 *
        (pc.getD (pc.getD i default).idx default).r_coeff := by
  have hi : i < n := lt_of_lt_of_le h (Nat.sub_le n 1)
  rw [linearize, getD_range_map _ _ _ _ hi, if_pos h]

/-- Witness for `linearize_indirect_formula` at the concrete table and
A-line of the counterexample. -/
theorem linearize_indirect_formula_witness :
    (linearize [⟨1, 5, 7⟩, ⟨1, 2, 3⟩, ⟨0, 0, 0⟩] ([0, 1, 0] : List ℚ) 3).getD 0 0 =
      ([0, 1, 0] : List ℚ).getD
          (([⟨1, 5, 7⟩, ⟨1, 2, 3⟩, ⟨0, 0, 0⟩] : List phaseCalibUnit).getD 0 default).idx 0 *
        (([⟨1, 5, 7⟩, ⟨1, 2, 3⟩, ⟨0, 0, 0⟩] : List phaseCalibUnit).getD
          (([⟨1, 5, 7⟩, ⟨1, 2, 3⟩, ⟨0, 0, 0⟩] : List phaseCalibUnit).getD 0 default).idx
          default).l_coeff +
      ([0, 1, 0] : List ℚ).getD
          ((([⟨1, 5, 7⟩, ⟨1, 2, 3⟩, ⟨0, 0, 0⟩] : List phaseCalibUnit).getD 0 default).idx + 1) 0 *
        (([⟨1, 5, 7⟩, ⟨1, 2, 3⟩, ⟨0, 0, 0⟩] : List phaseCalibUnit).getD
          (([⟨1, 5, 7⟩, ⟨1, 2, 3⟩, ⟨0, 0, 0⟩] : List phaseCalibUnit).getD 0 default).idx
          default).r_coeff :=
  linearize_indirect_formula [⟨1, 5, 7⟩, ⟨1, 2, 3⟩, ⟨0, 0, 0⟩] [0, 1, 0] 3 0
    (by decide)

/-- Claim C2: if every calibration entry has `sourceIndex < ALineSize - 1`
and the table is sized to `ALineSize`, the linearization loop reads the
background-subtracted A-line buffer only at indices `< ALineSize` (never at
`ALineSize` or beyond), and the last output sample — left undefined by the
interpolation scheme — is zero-filled. -/
theorem linearize_bounds_C2 (pc : List phaseCalibUnit) (n : Nat)
    (aline : List ℚ) (hlen : pc.length = n)
    (hidx : pc.all (fun u => decide (u.idx < n - 1)) = true) :
    (linReadIndices pc n).all (fun j => decide (j < n)) = true ∧
    (linearize pc aline n).getD (n - 1) 0 = 0 := by
  have hall : ∀ u ∈ pc, u.idx < n - 1 := by
    intro u hu
    simpa using List.all_eq_true.mp hidx u hu
  constructor
  · rw [List.all_eq_true]
    intro j hj
    simp only [linReadIndices, List.mem_flatten, List.mem_map,
      List.mem_range] at hj
    obtain ⟨l, ⟨i, hi, rfl⟩, hjl⟩ := hj
    have hilt : i < pc.length := by omega
    have hmem : pc.getD i default ∈ pc := by
      rw [List.getD_eq_getElem _ _ hilt]
      exact List.getElem_mem hilt
    have hidxlt : (pc.getD i default).idx < n - 1 := hall _ hmem
    simp only [List.mem_cons, List.mem_singleton] at hjl
    rcases hjl with rfl | rfl | h
    · simp only [decide_eq_true_eq]; omega
    · simp only [decide_eq_true_eq]; omega
    · cases h
  · rcases Nat.eq_zero_or_pos n with rfl | hn
    · simp [linearize]
    · rw [linearize, getD_range_map _ _ _ _ (by omega), if_neg (by omega)]

/-- Witness for `linearize_bounds_C2` at a concrete in-range table. -/
theorem linearize_bounds_C2_witness :
    (linReadIndices [⟨0, 1, 0⟩, ⟨0, 0, 0⟩] 2).all (fun j => decide (j < 2)) = true ∧
    (linearize [⟨0, 1, 0⟩, ⟨0, 0, 0⟩] ([3, 4] : List ℚ) 2).getD (2 - 1) 0 = 0 :=
  linearize_bounds_C2 [⟨0, 1, 0⟩, ⟨0, 0, 0⟩] 2 [3, 4] (by decide) (by decide)

/-- Claim C3: `logCompress` yields exactly `imageDepth` samples; sample `i`
(for `i < imageDepth`) is `contrast * (10 * log10(re^2 + im^2) + brightness)`
clamped to `[0, 255]` (the cast to the output sample type is the identity at
the `Tout = T` instantiation used by `reconBscan`); a bin whose pre-clamp
score is `-50` yields `0`, and a score of `400` yields `255`. -/
theorem logCompress_C3 (log10 : ℚ → ℚ) (d : Nat) (cx : List (ℚ × ℚ))
    (contrast brightness : ℚ) (i : Nat) (hi : i < d) :
    (logCompress log10 d cx contrast brightness).length = d ∧
    (logCompress log10 d cx contrast brightness).getD i 0 =
      clampByte (contrast * (10 * log10 ((cx.getD i (0, 0)).1 * (cx.getD i (0, 0)).1
        + (cx.getD i (0, 0)).2 * (cx.getD i (0, 0)).2) + brightness)) ∧
    (contrast * (10 * log10 ((cx.getD i (0, 0)).1 * (cx.getD i (0, 0)).1
        + (cx.getD i (0, 0)).2 * (cx.getD i (0, 0)).2) + brightness) = -50 →
      (logCompress log10 d cx contrast brightness).getD i 0 = 0) ∧
    (contrast * (10 * log10 ((cx.getD i (0, 0)).1 * (cx.getD i (0, 0)).1
        + (cx.getD i (0, 0)).2 * (cx.getD i (0, 0)).2) + brightness) = 400 →
      (logCompress log10 d cx contrast brightness).getD i 0 = 255) := by
  have hlen : (logCompress log10 d cx contrast brightness).length = d := by
    simp [logCompress]
  have hval : (logCompress log10 d cx contrast brightness).getD i 0 =
      clampByte (contrast * (10 * log10 ((cx.getD i (0, 0)).1 * (cx.getD i (0, 0)).1
        + (cx.getD i (0, 0)).2 * (cx.getD i (0, 0)).2) + brightness)) := by
    rw [logCompress, getD_range_map _ _ _ _ hi]
  refine ⟨hlen, hval, fun h => ?_, fun h => ?_⟩
  · rw [hval, h]; norm_num [clampByte]
  · rw [hval, h]; norm_num [clampByte]

/-- Witness for `logCompress_C3` at a concrete bin whose pre-clamp score is
`-50` (zero `log10`, `contrast = 1`, `brightness = -50`). -/
theorem logCompress_C3_witness :
    (logCompress (fun _ => 0) 1 [((0 : ℚ), (0 : ℚ))] 1 (-50)).length = 1 ∧
    (logCompress (fun _ => 0) 1 [((0 : ℚ), (0 : ℚ))] 1 (-50)).getD 0 0 =
      clampByte (1 * (10 * (fun _ => (0 : ℚ))
        ((([((0 : ℚ), (0 : ℚ))]).getD 0 (0, 0)).1 * (([((0 : ℚ), (0 : ℚ))]).getD 0 (0, 0)).1
        + (([((0 : ℚ), (0 : ℚ))]).getD 0 (0, 0)).2 * (([((0 : ℚ), (0 : ℚ))]).getD 0 (0, 0)).2)
        + -50)) ∧
    (1 * (10 * (fun _ => (0 : ℚ))
        ((([((0 : ℚ), (0 : ℚ))]).getD 0 (0, 0)).1 * (([((0 : ℚ), (0 : ℚ))]).getD 0 (0, 0)).1
        + (([((0 : ℚ), (0 : ℚ))]).getD 0 (0, 0)).2 * (([((0 : ℚ), (0 : ℚ))]).getD 0 (0, 0)).2)
        + -50) = -50 →
      (logCompress (fun _ => 0) 1 [((0 : ℚ), (0 : ℚ))] 1 (-50)).getD 0 0 = 0) ∧
    (1 * (10 * (fun _ => (0 : ℚ))
        ((([((0 : ℚ), (0 : ℚ))]).getD 0 (0, 0)).1 * (([((0 : ℚ), (0 : ℚ))]).getD 0 (0, 0)).1
        + (([((0 : ℚ), (0 : ℚ))]).getD 0 (0, 0)).2 * (([((0 : ℚ), (0 : ℚ))]).getD 0 (0, 0)).2)
        + -50) = 400 →
      (logCompress (fun _ => 0) 1 [((0 : ℚ), (0 : ℚ))] 1 (-50)).getD 0 0 = 255) :=
  logCompress_C3 (fun _ => 0) 1 [((0 : ℚ), (0 : ℚ))] 1 (-50) 0 (by decide)

/-- Claim C4: an assembled B-scan whose A-line count is not the oversampled
2200 pattern passes through the distortion-correction stage completely
unchanged (same dimensions, same pixels); conversely, if the stage changed
the image at all, the A-line count was the recognized 2200 pattern. -/
theorem distortionStage_C4 (P : Prims) (nLines : Nat) (mat : CMat ℚ)
    (h : nLines ≠ 2200) :
    distortionStage P nLines mat = mat ∧
    (distortionStage P nLines mat ≠ mat → nLines = 2200) := by
  have hid : distortionStage P nLines mat = mat := by
    simp [distortionStage, h]
  exact ⟨hid, fun hne => absurd hid hne⟩

/-- Witness for `distortionStage_C4` at a concrete 100-line image. -/
theorem distortionStage_C4_witness :
    distortionStage trivPrims 100 (CMat.mk 1 1 1 [[(0 : ℚ)]]) =
      CMat.mk 1 1 1 [[(0 : ℚ)]] ∧
    (distortionStage trivPrims 100 (CMat.mk 1 1 1 [[(0 : ℚ)]]) ≠
      CMat.mk 1 1 1 [[(0 : ℚ)]] → 100 = 2200) :=
  distortionStage_C4 trivPrims 100 (CMat.mk 1 1 1 [[(0 : ℚ)]]) (by decide)

/-- Claim C5: when the previous-image state is unset (`none`, the initial
empty `prevMat`) or its dimensions differ from the current image, no
circular column shift is applied: `reconBscan` returns exactly the pure
per-frame image (per-line pipeline plus distortion correction), and the new
previous-image state is seeded with that same output. -/
theorem reconBscan_C5 (P : Prims) (calib : Calibration) (fringe : List ℚ)
    (n d : Nat) (cp : ScanConversionParams) (prev : Option (CMat ℚ))
    (hdvd : fringe.length % n = 0)
    (hskip : ∀ p, prev = some p →
      dimsMatch p (pureImage P calib fringe n d cp) = false) :
    reconBscan P calib fringe n d cp prev =
      (some (pureImage P calib fringe n d cp),
       some (pureImage P calib fringe n d cp)) := by
  cases prev with
  | none => simp [reconBscan, hdvd, alignStage, pureImage]
  | some p =>
    have hmm := hskip p rfl
    rw [pureImage] at hmm
    simp [reconBscan, hdvd, alignStage, pureImage, hmm]

/-- Witness for `reconBscan_C5` with an unset previous-image state. -/
theorem reconBscan_C5_witness :
    reconBscan trivPrims ⟨[0], [⟨0, 0, 0⟩]⟩ ([1] : List ℚ) 1 1 ⟨1, 0⟩ none =
      (some (pureImage trivPrims ⟨[0], [⟨0, 0, 0⟩]⟩ ([1] : List ℚ) 1 1 ⟨1, 0⟩),
       some (pureImage trivPrims ⟨[0], [⟨0, 0, 0⟩]⟩ ([1] : List ℚ) 1 1 ⟨1, 0⟩)) :=
  reconBscan_C5 trivPrims ⟨[0], [⟨0, 0, 0⟩]⟩ [1] 1 1 ⟨1, 0⟩ none (by decide)
    (fun p hp => Option.noConfusion hp)

/-- Claim C6: a fringe buffer whose sample count is not a multiple of
`ALineSize` violates the `assert` precondition of `reconBscan`; in the model
this is an explicit failure the caller observes (`none` image), and no state
mutation occurs — the previous-image alignment state is returned unchanged. -/
theorem reconBscan_C6 (P : Prims) (calib : Calibration) (fringe : List ℚ)
    (n d : Nat) (cp : ScanConversionParams) (prev : Option (CMat ℚ))
    (h : fringe.length % n ≠ 0) :
    reconBscan P calib fringe n d cp prev = (none, prev) := by
  simp [reconBscan, h]

/-- Witness for `reconBscan_C6` with one stray sample against `ALineSize = 2`. -/
theorem reconBscan_C6_witness :
    reconBscan trivPrims ⟨[0], [⟨0, 0, 0⟩]⟩ ([5] : List ℚ) 2 1 ⟨1, 0⟩
      (some (CMat.mk 1 1 1 [[(9 : ℚ)]])) =
      (none, some (CMat.mk 1 1 1 [[(9 : ℚ)]])) :=
  reconBscan_C6 trivPrims ⟨[0], [⟨0, 0, 0⟩]⟩ [5] 2 1 ⟨1, 0⟩
    (some (CMat.mk 1 1 1 [[(9 : ℚ)]])) (by decide)

/-- Claim C9: with no prior sequence state the stateful alignment step is
skipped, and `reconBscan` is a deterministic function of the calibration,
fringe, and parameters alone: two calls with no prior state produce
bit-identical images, each equal to the pure per-frame pipeline image (plus
distortion correction). -/
theorem reconBscan_C9 (P : Prims) (calib : Calibration) (fringe : List ℚ)
    (n d : Nat) (cp : ScanConversionParams) (s₁ s₂ : Option (CMat ℚ))
    (h₁ : s₁ = none) (h₂ : s₂ = none) :
    (reconBscan P calib fringe n d cp s₁).1 =
      (reconBscan P calib fringe n d cp s₂).1 ∧
    (fringe.length % n = 0 →
      (reconBscan P calib fringe n d cp s₁).1 =
        some (pureImage P calib fringe n d cp)) := by
  subst h₁; subst h₂
  refine ⟨rfl, fun hdvd => ?_⟩
  simp [reconBscan, hdvd, alignStage, pureImage]

/-- Witness for `reconBscan_C9` at a concrete frame with both states unset. -/
theorem reconBscan_C9_witness :
    (reconBscan trivPrims ⟨[1], [⟨0, 2, 0⟩]⟩ ([2] : List ℚ) 1 1 ⟨1, 0⟩ none).1 =
      (reconBscan trivPrims ⟨[1], [⟨0, 2, 0⟩]⟩ ([2] : List ℚ) 1 1 ⟨1, 0⟩ none).1 ∧
    (([2] : List ℚ).length % 1 = 0 →
      (reconBscan trivPrims ⟨[1], [⟨0, 2, 0⟩]⟩ ([2] : List ℚ) 1 1 ⟨1, 0⟩ none).1 =
        some (pureImage trivPrims ⟨[1], [⟨0, 2, 0⟩]⟩ ([2] : List ℚ) 1 1 ⟨1, 0⟩)) :=
  reconBscan_C9 trivPrims ⟨[1], [⟨0, 2, 0⟩]⟩ [2] 1 1 ⟨1, 0⟩ none none rfl rfl

lemma map_range_succ_add (m k : Nat) :
    (List.range (m + 1)).map (fun j => k + j) =
      k :: (List.range m).map (fun j => k + 1 + j) := by
  rw [List.range_succ_eq_map, List.map_cons, List.map_map, Nat.add_zero]
  congr 1
  apply List.map_congr_left
  intro j hj
  simp only [Function.comp_apply]
  omega

lemma map_range_succ_add_mod (m k p : Nat) :
    (List.range (m + 1)).map (fun j => (k + j) % p) =
      k % p :: (List.range m).map (fun j => (k + 1 + j) % p) := by
  rw [List.range_succ_eq_map, List.map_cons, List.map_map, Nat.add_zero]
  congr 1
  apply List.map_congr_left
  intro j hj
  simp only [Function.comp_apply]
  congr 1
  omega

/-- Running `m` consecutive fully-successful iterations of the acquisition
loop appends the `m` produced frame indices and the `m` reposted slots and
advances `buffersCompleted` by `m`. -/
lemma acquireLoop_prefix (env : AcqEnv) (save : Bool) (pool : Nat) (m : Nat) :
    ∀ (fuel k : Nat) (pr wf rp : List Nat),
      m ≤ fuel →
      (∀ j, j < m → env.shouldStop (k + j) = false) →
      (∀ j, j < m → env.wait (k + j) = WaitResult.success) →
      (∀ j, j < m → save = false ∨ env.writeOk (k + j) = true) →
      DAQ.acquireLoop env save pool fuel k pr wf rp =
        DAQ.acquireLoop env save pool (fuel - m) (k + m)
          (pr ++ (List.range m).map (fun j => k + j)) wf
          (rp ++ (List.range m).map (fun j => (k + j) % pool)) := by
  induction m with
  | zero =>
    intro fuel k pr wf rp _ _ _ _
    simp
  | succ m ih =>
    intro fuel k pr wf rp hm hstop hw hok
    cases fuel with
    | zero => omega
    | succ fuel =>
      have h0 : env.shouldStop k = false := by simpa using hstop 0 (by omega)
      have h1 : env.wait k = WaitResult.success := by simpa using hw 0 (by omega)
      have h2 : (save && !env.writeOk k) = false := by
        rcases hok 0 (by omega) with h | h
        · simp [h]
        · simp only [Nat.add_zero] at h
          simp [h]
      rw [DAQ.acquireLoop, h0, if_neg Bool.false_ne_true, h1]
      rw [ih fuel (k + 1) (pr ++ [k]) wf (rp ++ [k % pool]) (by omega)
        (fun j hj => by
          have h := hstop (j + 1) (by omega)
          have e : k + 1 + j = k + (j + 1) := by omega
          rw [e]; exact h)
        (fun j hj => by
          have h := hw (j + 1) (by omega)
          have e : k + 1 + j = k + (j + 1) := by omega
          rw [e]; exact h)
        (fun j hj => by
          have h := hok (j + 1) (by omega)
          have e : k + 1 + j = k + (j + 1) := by omega
          rw [e]; exact h)]
      rw [map_range_succ_add, map_range_succ_add_mod]
      rw [Nat.succ_sub_succ]
      have hks : k + (m + 1) = k + 1 + m := by omega
      rw [hks]
      simp only [List.append_assoc, List.singleton_append]
      rw [h2, if_neg Bool.false_ne_true]

/-- Claim C8: if the hardware wait of iteration `k` returns any outcome
other than `Success` (timeout, overflow, buffer-not-ready, or an unknown
code) after `k` fully successful iterations, `DAQ::acquire` records the
condition-specific error message for that outcome, terminates the run with
`buffersCompleted = k` — the failing iteration's buffer is not reposted, no
further buffer is produced, and nothing is retried — returns failure, and
the ring buffer received exactly the `k` fully-copied frames `0..k-1`. -/
theorem daq_nonsuccess_fatal_C8 (env : AcqEnv) (save : Bool)
    (pool total k : Nat) (hk : k < total)
    (hfail : env.wait k ≠ WaitResult.success)
    (hpre : ∀ j, j < k → env.wait j = WaitResult.success)
    (hok : ∀ j, j < k → save = false ∨ env.writeOk j = true)
    (hstop : ∀ j, j ≤ k → env.shouldStop j = false) :
    DAQ.acquire env save pool total =
      ⟨false, k, ErrTag.ofWait (env.wait k), List.range k, [],
       (List.range k).map (fun j => j % pool)⟩ ∧
    ErrTag.ofWait (env.wait k) ≠ none := by
  have hrun : DAQ.acquire env save pool total =
      DAQ.acquireLoop env save pool (total - k) k (List.range k)
        [] ((List.range k).map (fun j => j % pool)) := by
    rw [DAQ.acquire, acquireLoop_prefix env save pool k total 0 [] [] []
      (by omega)
      (fun j hj => by simpa using hstop j (by omega))
      (fun j hj => by simpa using hpre j hj)
      (fun j hj => by simpa using hok j hj)]
    simp
  obtain ⟨f, hf⟩ : ∃ f, total - k = f + 1 := ⟨total - k - 1, by omega⟩
  rw [hrun, hf, DAQ.acquireLoop, hstop k le_rfl, if_neg Bool.false_ne_true]
  cases hw : env.wait k with
  | success => exact absurd hw hfail
  | timeout => exact ⟨rfl, by simp [ErrTag.ofWait]⟩
  | overflow => exact ⟨rfl, by simp [ErrTag.ofWait]⟩
  | notReady => exact ⟨rfl, by simp [ErrTag.ofWait]⟩
  | unknown c => exact ⟨rfl, by simp [ErrTag.ofWait]⟩

/-- Witness environment for `daq_nonsuccess_fatal_C8`: the first hardware
wait times out. -/
def envTimeout : AcqEnv :=
  ⟨fun _ => WaitResult.timeout, fun _ => true, fun _ => false⟩

/-- Witness for `daq_nonsuccess_fatal_C8`: a timeout on the very first
iteration of a one-buffer run. -/
theorem daq_nonsuccess_fatal_C8_witness :
    DAQ.acquire envTimeout false 3 1 =
      ⟨false, 0, ErrTag.ofWait (envTimeout.wait 0), List.range 0, [],
       (List.range 0).map (fun j => j % 3)⟩ ∧
    ErrTag.ofWait (envTimeout.wait 0) ≠ none :=
  daq_nonsuccess_fatal_C8 envTimeout false 3 1 0 (by decide) (by decide)
    (fun j hj => absurd hj (by omega)) (fun j hj => absurd hj (by omega))
    (fun j _ => rfl)

/-- Claim C7, counterexample: with saving enabled and every hardware wait
succeeding, a persistence-sink write failure on buffer 0 of a two-buffer
run stops the loop — the buffer is NOT reposted and NO subsequent buffer is
produced or saved (`buffersCompleted` stays 1, short of the requested 2,
and `acquire` returns failure) — contradicting the claim that the loop
still reposts the buffer and continues. -/
theorem daq_write_failure_C7_counterexample :
    (DAQ.acquire envWriteFail true 2 2).success = false ∧
    (DAQ.acquire envWriteFail true 2 2).buffersCompleted = 1 ∧
    (DAQ.acquire envWriteFail true 2 2).reposted = [] ∧
    (DAQ.acquire envWriteFail true 2 2).produced = [0] ∧
    (DAQ.acquire envWriteFail true 2 2).writeFailures = [1] := by
  decide

/-- Claim C7 (amended): with saving enabled, a failure to write completed
buffer `k` to the persistence sink is reported (logged with the current
`buffersCompleted`) but terminates the acquisition run: the frame itself
was still handed to the ring buffer before the write, yet the buffer is not
reposted, no further buffers are waited for or produced, and `acquire`
returns failure. -/
theorem daq_write_failure_stops_C7 (env : AcqEnv) (pool total k : Nat)
    (hk : k < total)
    (hfailw : env.writeOk k = false)
    (hwaits : ∀ j, j ≤ k → env.wait j = WaitResult.success)
    (hok : ∀ j, j < k → env.writeOk j = true)
    (hstop : ∀ j, j ≤ k → env.shouldStop j = false) :
    DAQ.acquire env true pool total =
      ⟨false, k + 1, none, List.range (k + 1), [k + 1],
       (List.range k).map (fun j => j % pool)⟩ := by
  have hrun : DAQ.acquire env true pool total =
      DAQ.acquireLoop env true pool (total - k) k (List.range k)
        [] ((List.range k).map (fun j => j % pool)) := by
    rw [DAQ.acquire, acquireLoop_prefix env true pool k total 0 [] [] []
      (by omega)
      (fun j hj => by simpa using hstop j (by omega))
      (fun j hj => by simpa using hwaits j (by omega))
      (fun j hj => Or.inr (by simpa using hok j hj))]
    simp
  obtain ⟨f, hf⟩ : ∃ f, total - k = f + 1 := ⟨total - k - 1, by omega⟩
  rw [hrun, hf, DAQ.acquireLoop, hstop k le_rfl, if_neg Bool.false_ne_true,
    hwaits k le_rfl]
  simp [hfailw, List.range_succ]

/-- Witness for `daq_write_failure_stops_C7`: the write of buffer 0 fails in
a three-buffer run. -/
theorem daq_write_failure_stops_C7_witness :
    DAQ.acquire envWriteFail true 2 3 =
      ⟨false, 0 + 1, none, List.range (0 + 1), [0 + 1],
       (List.range 0).map (fun j => j % 2)⟩ :=
  daq_write_failure_stops_C7 envWriteFail 2 3 0 (by decide) (by decide)
    (fun j _ => rfl) (fun j hj => absurd hj (by omega)) (fun j _ => rfl)

end OCT
